import Mathlib

/-!
Shallow embedding of the Move module `sui::randomness`
(`crates/sui-framework/sources/randomness.move`) and proofs of the
specification's claims about it.

Byte strings (`vector<u8>`) are modelled as lists of naturals; machine
integers (`u64`) as naturals, with explicit `% 256` digit extraction where
an encoding is produced.  The module's two external collaborators —
`native_verify_tbls_signature` and `std::hash::sha3_256` — are injected as
explicit function parameters, following §9 of the spec ("model as an
injected dependency").
-/

namespace SuiRandomness

/-- Byte sequences (`vector<u8>` in the source). -/
abbrev Bytes := List Nat

/-- `const EInvalidSignature: u64 = 0;` — set is called with an invalid signature. -/
def EInvalidSignature : Nat := 0

/-- `const EAlreadySet: u64 = 1;` — already set object cannot be set again. -/
def EAlreadySet : Nat := 1

/-- `const Domain: vector<u8> = b"randomness";` — the ASCII bytes of the string. -/
def Domain : Bytes := [114, 97, 110, 100, 111, 109, 110, 101, 115, 115]

/-- Little-endian base-256 digits of `n`, exactly `k` bytes (encodes `n % 256^k`). -/
def natToLEBytes : Nat → Nat → Bytes
  | 0, _ => []
  | k + 1, n => n % 256 :: natToLEBytes k (n / 256)

/-- BCS serialization of a `u64` (`sui::bcs::to_bytes(&epoch)`): 8 bytes,
little-endian, per the Binary Canonical Serialization format used by the
framework. -/
def bcs_to_bytes_u64 (n : Nat) : Bytes := natToLEBytes 8 n

/-- Modelled from the spec: `object::id_to_bytes` — the "fixed-width encoding
of `object_id`" (§6); object ids are fixed-size addresses, modelled as 32
little-endian bytes of a natural below `2^256`.  (The `sui::object` module is
an external collaborator; only the fixed width matters to the claims.) -/
def id_to_bytes (id : Nat) : Bytes := natToLEBytes 32 id

/-- `struct Randomness<phantom T> has key { id, epoch, value }`. -/
structure Randomness (T : Type) where
  id : Nat
  epoch : Nat
  value : Option Bytes

/-- Modelled from the spec: the ledger runtime context (`sui::tx_context`),
supplying the current epoch and fresh-identity allocation via a counter. -/
structure TxContext where
  epoch : Nat
  ids_created : Nat

/-- Modelled from the spec: `object::new(ctx)` — "allocates one new identity
in the runtime's object space": returns the next unallocated id and bumps the
allocation counter. -/
def object_new (ctx : TxContext) : Nat × TxContext :=
  (ctx.ids_created, { ctx with ids_created := ctx.ids_created + 1 })

/-- `public fun new<T: drop>(_w: T, ctx: &mut TxContext): Randomness<T>`. -/
def new {T : Type} (_w : T) (ctx : TxContext) : Randomness T × TxContext :=
  let alloc := object_new ctx
  ({ id := alloc.1, epoch := ctx.epoch, value := none }, alloc.2)

/-- Modelled from the spec: ownership state managed by `sui::transfer` —
an object is exclusively owned by an address or shared. -/
inductive Ownership where
  | address_owned (recipient : Nat)
  | shared

/-- An object together with its runtime ownership record. -/
structure Owned (T : Type) where
  obj : Randomness T
  owner : Ownership

/-- `public fun transfer<T>(self: Randomness<T>, to: address)` — delegates to
`transfer::transfer(self, to)`: records exclusive ownership by `to`. -/
def transfer {T : Type} (self : Randomness T) (recipient : Nat) : Owned T :=
  { obj := self, owner := Ownership.address_owned recipient }

/-- `public fun share_object<T>(self: Randomness<T>)` — delegates to
`transfer::share_object(self)`: records shared ownership. -/
def share_object {T : Type} (self : Randomness T) : Owned T :=
  { obj := self, owner := Ownership.shared }

/-- `fun to_bytes(domain: &vector<u8>, epoch: u64, id: &ID): vector<u8>` —
appends the domain, the BCS bytes of the epoch and the id bytes to an empty
buffer. -/
def to_bytes (domain : Bytes) (epoch : Nat) (id : Nat) : Bytes :=
  let buffer : Bytes := []
  let buffer := buffer ++ domain
  let buffer := buffer ++ bcs_to_bytes_u64 epoch
  let buffer := buffer ++ id_to_bytes id
  buffer

/-- `public fun set<T>(self: &mut Randomness<T>, sig: vector<u8>)`, with the
native verifier and `std::hash::sha3_256` injected.  On success the updated
object is returned; `assert!` failures abort with the corresponding code. -/
def set {T : Type} (verify : Nat → Bytes → Bytes → Bool) (sha3_256 : Bytes → Bytes)
    (self : Randomness T) (sig : Bytes) : Except Nat (Randomness T) :=
  if !self.value.isNone then Except.error EAlreadySet
  else
    let msg := to_bytes Domain self.epoch self.id
    if !verify self.epoch msg sig then Except.error EInvalidSignature
    else
      let hashed := sha3_256 sig
      Except.ok { self with value := some hashed }

/-- `public fun destroy<T>(r: Randomness<T>)` — unpacks the object and deletes
its id; modelled as consuming the object. -/
def destroy {T : Type} (_r : Randomness T) : Unit := ()

/-- `public fun epoch<T>(self: &Randomness<T>): u64`. -/
def epoch {T : Type} (self : Randomness T) : Nat := self.epoch

/-- `public fun value<T>(self: &Randomness<T>): &Option<vector<u8>>`. -/
def value {T : Type} (self : Randomness T) : Option Bytes := self.value

/-- One operation of the module applied to an existing object. -/
inductive Op where
  | transferOp (recipient : Nat)
  | shareOp
  | setOp (sig : Bytes)
  | destroyOp
  | epochOp
  | valueOp

/-- Effect of one operation on the object's fields.  `transfer` and
`share_object` only move ownership; accessors read; a failed `set` aborts the
transaction, leaving the object as it was. -/
def step {T : Type} (verify : Nat → Bytes → Bytes → Bool) (sha3_256 : Bytes → Bytes)
    (r : Randomness T) (op : Op) : Randomness T :=
  match op with
  | Op.setOp sig =>
    match set verify sha3_256 r sig with
    | Except.ok r' => r'
    | Except.error _ => r
  | _ => r

/-- Lifecycle state: `some r` while the object exists, `none` once destroyed. -/
def stepL {T : Type} (verify : Nat → Bytes → Bytes → Bool) (sha3_256 : Bytes → Bytes)
    (st : Option (Randomness T)) (op : Op) : Option (Randomness T) :=
  match st, op with
  | none, _ => none
  | some _, Op.destroyOp => none
  | some r, op => some (step verify sha3_256 r op)

/-- Run a sequence of operations over the lifecycle state. -/
def exec {T : Type} (verify : Nat → Bytes → Bytes → Bool) (sha3_256 : Bytes → Bytes)
    (st : Option (Randomness T)) (ops : List Op) : Option (Randomness T) :=
  ops.foldl (stepL verify sha3_256) st

/-- The spec's claimed epoch encoding: fixed-width big-endian 64-bit
("be64"), most significant byte first. -/
def be64 (n : Nat) : Bytes := (List.range 8).map (fun i => n / 256 ^ (7 - i) % 256)

/-- Fixed-width little-endian 64-bit encoding, least significant byte first
(the byte order BCS actually uses for a `u64`). -/
def le64 (n : Nat) : Bytes := (List.range 8).map (fun i => n / 256 ^ i % 256)

/-- A verifier that accepts every signature (concrete instance for witnesses). -/
def verifyT : Nat → Bytes → Bytes → Bool := fun _ _ _ => true

/-- A verifier that rejects every signature (concrete instance for witnesses). -/
def verifyF : Nat → Bytes → Bytes → Bool := fun _ _ _ => false

/-- A stand-in 32-byte hash function (concrete instance for witnesses). -/
def sha0 : Bytes → Bytes := fun _ => List.replicate 32 0

/-- A concrete unset object. -/
def rNone : Randomness Unit := { id := 5, epoch := 3, value := none }

/-- A concrete object whose value is already set. -/
def rSet : Randomness Unit := { id := 5, epoch := 3, value := some [7] }

/-- A concrete runtime context. -/
def ctx0 : TxContext := { epoch := 3, ids_created := 5 }

/-! ### Helper lemmas -/

theorem set_of_some_value {T : Type} (verify : Nat → Bytes → Bytes → Bool)
    (sha3_256 : Bytes → Bytes) (r : Randomness T) (sig b : Bytes)
    (h : r.value = some b) :
    set verify sha3_256 r sig = Except.error EAlreadySet := by
  simp [set, h]

theorem step_of_some_value {T : Type} (verify : Nat → Bytes → Bytes → Bool)
    (sha3_256 : Bytes → Bytes) (r : Randomness T) (op : Op) (b : Bytes)
    (h : r.value = some b) :
    step verify sha3_256 r op = r := by
  cases op <;> simp [step, set, h]

theorem step_value_cases {T : Type} (verify : Nat → Bytes → Bytes → Bool)
    (sha3_256 : Bytes → Bytes) (r : Randomness T) (op : Op) :
    (step verify sha3_256 r op).value = r.value ∨
      (r.value = none ∧ ∃ sig, (step verify sha3_256 r op).value = some (sha3_256 sig)) := by
  cases op with
  | setOp sig =>
    cases hr : r.value with
    | some b => rw [step_of_some_value verify sha3_256 r _ b hr]; exact Or.inl hr
    | none =>
      cases hv : verify r.epoch (to_bytes Domain r.epoch r.id) sig with
      | false => left; simp [step, set, hr, hv]
      | true => right; exact ⟨rfl, sig, by simp [step, set, hr, hv]⟩
  | transferOp recipient => exact Or.inl rfl
  | shareOp => exact Or.inl rfl
  | destroyOp => exact Or.inl rfl
  | epochOp => exact Or.inl rfl
  | valueOp => exact Or.inl rfl

theorem exec_cons {T : Type} (verify : Nat → Bytes → Bytes → Bool)
    (sha3_256 : Bytes → Bytes) (st : Option (Randomness T)) (op : Op) (ops : List Op) :
    exec verify sha3_256 st (op :: ops) = exec verify sha3_256 (stepL verify sha3_256 st op) ops :=
  rfl

theorem exec_dead {T : Type} (verify : Nat → Bytes → Bytes → Bool)
    (sha3_256 : Bytes → Bytes) (ops : List Op) :
    exec verify sha3_256 (none : Option (Randomness T)) ops = none := by
  induction ops with
  | nil => rfl
  | cons op ops ih => rw [exec_cons]; exact ih

theorem stepL_some_inv {T : Type} (verify : Nat → Bytes → Bytes → Bool)
    (sha3_256 : Bytes → Bytes) (r r2 : Randomness T) (op : Op)
    (h : stepL verify sha3_256 (some r) op = some r2) :
    r2 = step verify sha3_256 r op := by
  cases op <;> simp [stepL] at h <;> simp [step, h.symm]

theorem exec_of_some_value {T : Type} (verify : Nat → Bytes → Bytes → Bool)
    (sha3_256 : Bytes → Bytes) (r : Randomness T) (ops : List Op) (b : Bytes)
    (h : r.value = some b) :
    exec verify sha3_256 (some r) ops = none ∨
      exec verify sha3_256 (some r) ops = some r := by
  induction ops with
  | nil => exact Or.inr rfl
  | cons op ops ih =>
    have hstep : stepL verify sha3_256 (some r) op = none ∨
        stepL verify sha3_256 (some r) op = some r := by
      cases op <;> simp [stepL, step_of_some_value verify sha3_256 r _ b h]
    rcases hstep with h1 | h1
    · rw [exec_cons, h1]
      exact Or.inl (exec_dead verify sha3_256 ops)
    · rw [exec_cons, h1]
      exact ih

theorem natToLEBytes_eq_map : ∀ (k n : Nat),
    natToLEBytes k n = (List.range k).map (fun i => n / 256 ^ i % 256) := by
  intro k
  induction k with
  | zero => intro n; rfl
  | succ k ih =>
    intro n
    rw [List.range_succ_eq_map, natToLEBytes, ih (n / 256)]
    simp only [List.map_cons, List.map_map, pow_zero, Nat.div_one, List.cons.injEq, true_and]
    apply List.map_congr_left
    intro i _
    simp only [Function.comp_apply, Nat.div_div_eq_div_mul]
    rw [← pow_succ']

theorem natToLEBytes_inj : ∀ (k n m : Nat), n < 256 ^ k → m < 256 ^ k →
    natToLEBytes k n = natToLEBytes k m → n = m := by
  intro k
  induction k with
  | zero => intro n m hn hm _; omega
  | succ k ih =>
    intro n m hn hm h
    rw [natToLEBytes, natToLEBytes] at h
    obtain ⟨h1, h2⟩ := List.cons.inj h
    have hn2 : n / 256 < 256 ^ k := by
      rw [pow_succ'] at hn
      exact Nat.div_lt_of_lt_mul hn
    have hm2 : m / 256 < 256 ^ k := by
      rw [pow_succ'] at hm
      exact Nat.div_lt_of_lt_mul hm
    have hd : n / 256 = m / 256 := ih (n / 256) (m / 256) hn2 hm2 h2
    omega

theorem pow_256_32 : (256 : Nat) ^ 32 = 2 ^ 256 := by norm_num

/-! ### Claims -/

/-- C1: for every `Randomness` object whose value is absent and every
signature byte string that the verifier accepts for the object's epoch and
canonical message, `set` succeeds and afterwards the object's value is
`some` of the `sha3_256` digest of the signature bytes (the hash of the
signature, never the raw signature). -/
theorem set_valid_signature_stores_hash {T : Type}
    (verify : Nat → Bytes → Bytes → Bool) (sha3_256 : Bytes → Bytes)
    (r : Randomness T) (sig : Bytes)
    (hnone : r.value = none)
    (hver : verify r.epoch (to_bytes Domain r.epoch r.id) sig = true) :
    set verify sha3_256 r sig = Except.ok { r with value := some (sha3_256 sig) } := by
  simp [set, hnone, hver]

/-- C1 witness at a concrete object, verifier and hash. -/
theorem set_valid_signature_stores_hash_witness :
    set verifyT sha0 rNone [1, 2, 3] =
      Except.ok { id := 5, epoch := 3, value := some (List.replicate 32 0) } :=
  set_valid_signature_stores_hash verifyT sha0 rNone [1, 2, 3] rfl rfl

/-- C4: for every `Randomness` object whose value is already present,
calling `set` with any signature bytes fails with `EAlreadySet` and leaves
every field of the object unchanged. -/
theorem set_already_set_fails {T : Type}
    (verify : Nat → Bytes → Bytes → Bool) (sha3_256 : Bytes → Bytes)
    (r : Randomness T) (sig b : Bytes)
    (hsome : r.value = some b) :
    set verify sha3_256 r sig = Except.error EAlreadySet ∧
      step verify sha3_256 r (Op.setOp sig) = r :=
  ⟨set_of_some_value verify sha3_256 r sig b hsome,
    step_of_some_value verify sha3_256 r (Op.setOp sig) b hsome⟩

/-- C4 witness at a concrete already-set object. -/
theorem set_already_set_fails_witness :
    set verifyT sha0 rSet [1] = Except.error EAlreadySet ∧
      step verifyT sha0 rSet (Op.setOp [1]) = rSet :=
  set_already_set_fails verifyT sha0 rSet [1] [7] rfl

/-- C5: for every `Randomness` object with absent value and every signature
byte string that the verifier rejects for the object's epoch and canonical
message, `set` fails with `EInvalidSignature` and the object is unchanged
(the failed attempt is not recorded). -/
theorem set_invalid_signature_fails {T : Type}
    (verify : Nat → Bytes → Bytes → Bool) (sha3_256 : Bytes → Bytes)
    (r : Randomness T) (sig : Bytes)
    (hnone : r.value = none)
    (hver : verify r.epoch (to_bytes Domain r.epoch r.id) sig = false) :
    set verify sha3_256 r sig = Except.error EInvalidSignature ∧
      step verify sha3_256 r (Op.setOp sig) = r := by
  constructor
  · simp [set, hnone, hver]
  · simp [step, set, hnone, hver]

/-- C5 witness at a concrete unset object and a rejecting verifier. -/
theorem set_invalid_signature_fails_witness :
    set verifyF sha0 rNone [1] = Except.error EInvalidSignature ∧
      step verifyF sha0 rNone (Op.setOp [1]) = rNone :=
  set_invalid_signature_fails verifyF sha0 rNone [1] rfl rfl

/-- C6: for every marker capability value and every runtime context, `new`
succeeds and returns an object with a freshly allocated identity (the next
unallocated id; the allocation counter is bumped), epoch equal to the
context's current epoch, and absent value. -/
theorem new_fresh_object {T : Type} (w : T) (ctx : TxContext) :
    (new w ctx).1.epoch = ctx.epoch ∧ (new w ctx).1.value = none ∧
      (new w ctx).1.id = ctx.ids_created ∧
      (new w ctx).2.ids_created = ctx.ids_created + 1 :=
  ⟨rfl, rfl, rfl, rfl⟩

/-- C8: `transfer` and `share_object` leave the object's `epoch` and
`value` fields unchanged; they only record the new ownership. -/
theorem transfer_share_preserve_fields {T : Type} (r : Randomness T) (recipient : Nat) :
    (transfer r recipient).obj.epoch = r.epoch ∧
      (transfer r recipient).obj.value = r.value ∧
      (share_object r).obj.epoch = r.epoch ∧
      (share_object r).obj.value = r.value :=
  ⟨rfl, rfl, rfl, rfl⟩

/-- C9: for every `Randomness` object whose value is already present, `set`
fails with `EAlreadySet` under every verifier and every hash function (so
the result does not depend on the verifier, which is consulted only after
the `EAlreadySet` check), and in particular never with `EInvalidSignature`. -/
theorem set_already_set_ignores_verifier {T : Type}
    (verify verify2 : Nat → Bytes → Bytes → Bool) (sha3_256 sha2 : Bytes → Bytes)
    (r : Randomness T) (sig b : Bytes)
    (hsome : r.value = some b) :
    set verify sha3_256 r sig = Except.error EAlreadySet ∧
      set verify sha3_256 r sig = set verify2 sha2 r sig ∧
      set verify sha3_256 r sig ≠ Except.error EInvalidSignature := by
  refine ⟨set_of_some_value verify sha3_256 r sig b hsome, ?_, ?_⟩
  · rw [set_of_some_value verify sha3_256 r sig b hsome,
      set_of_some_value verify2 sha2 r sig b hsome]
  · rw [set_of_some_value verify sha3_256 r sig b hsome]
    simp [EAlreadySet, EInvalidSignature]

/-- C9 witness: on an already-set object, a rejecting verifier still yields
`EAlreadySet`, the same result as an accepting verifier. -/
theorem set_already_set_ignores_verifier_witness :
    set verifyF sha0 rSet [9] = Except.error EAlreadySet ∧
      set verifyF sha0 rSet [9] = set verifyT sha0 rSet [9] ∧
      set verifyF sha0 rSet [9] ≠ Except.error EInvalidSignature :=
  set_already_set_ignores_verifier verifyF verifyT sha0 sha0 rSet [9] [7] rfl

/-- C2: over any sequence of operations, the `value` field transitions
`none → some` at most once and is never cleared or overwritten: every single
step either leaves `value` unchanged or fills an absent value, and once an
object holds `some b` it stays exactly the same object until destroyed. -/
theorem value_set_at_most_once {T : Type}
    (verify : Nat → Bytes → Bytes → Bool) (sha3_256 : Bytes → Bytes) :
    (∀ (r : Randomness T) (op : Op),
        (step verify sha3_256 r op).value = r.value ∨
          (r.value = none ∧ ∃ b, (step verify sha3_256 r op).value = some b)) ∧
      (∀ (r : Randomness T) (ops : List Op) (b : Bytes), r.value = some b →
          exec verify sha3_256 (some r) ops = none ∨
            exec verify sha3_256 (some r) ops = some r) := by
  constructor
  · intro r op
    rcases step_value_cases verify sha3_256 r op with h | ⟨hn, sig, hs⟩
    · exact Or.inl h
    · exact Or.inr ⟨hn, sha3_256 sig, hs⟩
  · intro r ops b h
    exact exec_of_some_value verify sha3_256 r ops b h

/-- C2 witness: a set object survives further operations unchanged. -/
theorem value_set_at_most_once_witness :
    exec verifyT sha0 (some rSet) [Op.shareOp, Op.setOp [9]] = none ∨
      exec verifyT sha0 (some rSet) [Op.shareOp, Op.setOp [9]] = some rSet :=
  (value_set_at_most_once verifyT sha0).2 rSet [Op.shareOp, Op.setOp [9]] [7] rfl

/-- C3 counterexample: for an object with id 42 and epoch 7 the canonical
message is not the domain tag followed by the big-endian 64-bit encoding of
the epoch: the epoch bytes come out little-endian. -/
theorem to_bytes_not_bigendian :
    to_bytes Domain 7 42 ≠ Domain ++ be64 7 ++ id_to_bytes 42 := by decide

/-- C3 (amended): the canonical message is the literal domain tag
"randomness", followed by the fixed-width little-endian 64-bit encoding of
the epoch, followed by the fixed-width encoding of the id. -/
theorem to_bytes_is_domain_le64_id (e id : Nat) :
    to_bytes Domain e id = Domain ++ le64 e ++ id_to_bytes id := by
  simp [to_bytes, bcs_to_bytes_u64, natToLEBytes_eq_map, le64]

/-- C7: for two objects with different ids (both in the 32-byte id space)
and equal epochs, the canonical messages differ: message construction is
injective in the id for a fixed epoch. -/
theorem to_bytes_injective_in_id (e id1 id2 : Nat)
    (h1 : id1 < 2 ^ 256) (h2 : id2 < 2 ^ 256) (hne : id1 ≠ id2) :
    to_bytes Domain e id1 ≠ to_bytes Domain e id2 := by
  intro h
  apply hne
  simp only [to_bytes, List.nil_append, List.append_assoc] at h
  have h3 : id_to_bytes id1 = id_to_bytes id2 :=
    List.append_cancel_left (List.append_cancel_left h)
  exact natToLEBytes_inj 32 id1 id2 (pow_256_32 ▸ h1) (pow_256_32 ▸ h2) h3

/-- C7 witness: ids 42 and 43 at epoch 7 give different messages. -/
theorem to_bytes_injective_in_id_witness :
    to_bytes Domain 7 42 ≠ to_bytes Domain 7 43 :=
  to_bytes_injective_in_id 7 42 43 (by norm_num) (by norm_num) (by norm_num)

theorem step_preserves_len32 {T : Type} (verify : Nat → Bytes → Bytes → Bool)
    (sha3_256 : Bytes → Bytes) (hsha : ∀ x, (sha3_256 x).length = 32)
    (r : Randomness T) (op : Op)
    (hinv : ∀ b, r.value = some b → b.length = 32) :
    ∀ b, (step verify sha3_256 r op).value = some b → b.length = 32 := by
  intro b hb
  rcases step_value_cases verify sha3_256 r op with h | ⟨_, sig, hs⟩
  · exact hinv b (h ▸ hb)
  · rw [hs] at hb
    obtain rfl := Option.some.inj hb
    exact hsha sig

theorem exec_preserves_len32 {T : Type} (verify : Nat → Bytes → Bytes → Bool)
    (sha3_256 : Bytes → Bytes) (hsha : ∀ x, (sha3_256 x).length = 32) :
    ∀ (ops : List Op) (st : Option (Randomness T)),
      (∀ r, st = some r → ∀ b, r.value = some b → b.length = 32) →
      ∀ r2, exec verify sha3_256 st ops = some r2 →
        ∀ b, r2.value = some b → b.length = 32 := by
  intro ops
  induction ops with
  | nil => intro st hst r2 hr2; exact hst r2 hr2
  | cons op ops ih =>
    intro st hst r2 hr2
    rw [exec_cons] at hr2
    refine ih (stepL verify sha3_256 st op) ?_ r2 hr2
    intro r3 hr3
    cases st with
    | none => rw [stepL] at hr3; exact absurd hr3 (by simp)
    | some r0 =>
      rw [stepL_some_inv verify sha3_256 r0 r3 op hr3]
      exact step_preserves_len32 verify sha3_256 hsha r0 op (hst r0 rfl)

/-- C10: for every object reachable from `new` by any sequence of
operations, whenever the value field is `some b`, `b` has length exactly 32,
provided the hash function produces 32-byte digests (as `sha3_256` does). -/
theorem value_length_32_invariant {T : Type} (w : T)
    (verify : Nat → Bytes → Bytes → Bool) (sha3_256 : Bytes → Bytes)
    (hsha : ∀ x, (sha3_256 x).length = 32)
    (ctx : TxContext) (ops : List Op) (r2 : Randomness T) (b : Bytes)
    (hreach : exec verify sha3_256 (some (new w ctx).1) ops = some r2)
    (hval : r2.value = some b) :
    b.length = 32 := by
  refine exec_preserves_len32 verify sha3_256 hsha ops (some (new w ctx).1)
    ?_ r2 hreach b hval
  intro r hr b2 hb2
  obtain rfl := Option.some.inj hr
  simp [new] at hb2

/-- C10 witness: running `set` from a fresh object under a 32-byte hash
yields a 32-byte value. -/
theorem value_length_32_invariant_witness : (List.replicate 32 (0 : Nat)).length = 32 :=
  value_length_32_invariant () verifyT sha0 (fun _ => rfl) ctx0 [Op.setOp [1]]
    { id := 5, epoch := 3, value := some (List.replicate 32 0) } (List.replicate 32 0)
    rfl rfl

end SuiRandomness
